import Mathlib

/-!
Verification development for the real-time workflow progress and broadcast
core of the pinn-enterprise-platform repository.

The embedding covers:
* `src/pinn-workers-deploy/src/services/workflow-manager.js`
  (`updateWorkflowStatus`, the update sequence issued by `processWorkflow`
  and its step simulators), together with the record-creation shape from
  `src/pinn-workers-deploy/src/index.js` (POST `/api/v2/simulations`);
* `src/opensource-pinn-platform/cloudflare/src/services/websocket-manager.js`
  (`handleSession`, `handleMessage`, `sendMessage`, `sendWorkflowStatus`,
  `startPeriodicUpdates`, `broadcastToWorkflow`).

JS numbers that only ever hold integers are modelled as `Int`; timestamps
(`new Date().toISOString()`) as `Nat` ticks; KV stores as association lists.
Float-valued telemetry (accuracy, loss, convergence) is produced by the code
but inspected by no claim; the metrics object is modelled by its
integer-valued fields.
-/

namespace PinnPlatform

/-- The training-metrics object built in `simulatePINNTraining`
(workflow-manager.js lines 64-70).  Only the integer-valued fields are kept:
`epoch = (progress - 50) * 100` and `training_time = (progress - 50) * 2`;
the float fields accuracy/loss/convergence are not inspected by any claim. -/
structure Metrics where
  epoch : Int
  training_time : Int
deriving Repr, DecidableEq

/-- A stored workflow record (the JSON value kept in `WORKFLOWS_KV`), with the
fields touched by `updateWorkflowStatus` plus `errorMessage`.  The JS record
never carries an `errorMessage` key (creation in index.js lines 720-736 does
not set it and no update writes it); an absent key is modelled as an `Option`
that stays `none`.  `estimated_remaining_time` is likewise absent at creation
and first written by `updateWorkflowStatus`.  Opaque request fields (name,
description, tags, ...) are never read or written after creation and are
omitted. -/
structure Workflow where
  status : String
  progress : Int
  current_step : String
  metrics : Option Metrics
  estimated_remaining_time : Option Int
  updated_at : Nat
  errorMessage : Option String
deriving Repr, DecidableEq

/-- The record created by POST `/api/v2/simulations` (index.js lines 720-736):
`status: 'initiated'`, `progress: 0`, `current_step: 'use_case_generation'`. -/
def initialWorkflow (now : Nat) : Workflow :=
  { status := "initiated"
    progress := 0
    current_step := "use_case_generation"
    metrics := none
    estimated_remaining_time := none
    updated_at := now
    errorMessage := none }

/-- The argument tuple of one `updateWorkflowStatus` call:
`(status, progress = null, step = null, metrics = null)`. -/
structure UpdateCall where
  status : String
  progress : Option Int
  step : Option String
  metrics : Option Metrics
deriving Repr, DecidableEq

/-- The `WORKFLOWS_KV` namespace: one JSON record per workflow id. -/
abbrev KV := List (String × Workflow)

/-- `WORKFLOWS_KV.get`: the record stored under a key, if any. -/
def kvGet (s : KV) (k : String) : Option Workflow :=
  match s with
  | [] => none
  | (k', w) :: rest => if k' = k then some w else kvGet rest k

/-- `WORKFLOWS_KV.put`: full-record overwrite of one key (last-writer-wins). -/
def kvPut (s : KV) (k : String) (w : Workflow) : KV :=
  match s with
  | [] => [(k, w)]
  | (k', w') :: rest => if k' = k then (k, w) :: rest else (k', w') :: kvPut rest k w

/-- The remaining-time computation of `updateWorkflowStatus`
(workflow-manager.js lines 222-230).  The guard is the JS truthiness test
`if (progress && progress < 100)`: `null` and `0` are falsy, so those inputs
take the `else` branch and store `0`.  In the truthy branch the code stores
`Math.round(300 * (1 - progress / 100))`; for an integer `p` that float
expression rounds to exactly `300 - 3 * p = 300 * (100 - p) / 100`, which is
how it is written here (the division is exact). -/
def remainingEstimate (progress : Option Int) : Int :=
  match progress with
  | none => 0
  | some p => if p ≠ 0 ∧ p < 100 then 300 * (100 - p) / 100 else 0

/-- The field-update section of `updateWorkflowStatus` (lines 214-230): set
`status` and `updated_at` unconditionally, overwrite `progress` /
`current_step` / `metrics` only when the corresponding argument is non-null,
then store the remaining-time estimate computed from the `progress`
argument. -/
def applyCall (w : Workflow) (now : Nat) (c : UpdateCall) : Workflow :=
  let w1 := { w with status := c.status, updated_at := now }
  let w2 := match c.progress with
    | some p => { w1 with progress := p }
    | none => w1
  let w3 := match c.step with
    | some s => { w2 with current_step := s }
    | none => w2
  let w4 := match c.metrics with
    | some m => { w3 with metrics := some m }
    | none => w3
  { w4 with estimated_remaining_time := some (remainingEstimate c.progress) }

/-- The body of the `try` block of `updateWorkflowStatus` (lines 208-233),
with fault injection for the two KV operations: `getFails` makes
`WORKFLOWS_KV.get` throw, `putFails` makes `WORKFLOWS_KV.put` throw.
A missing record returns early (`if (!workflowData) return;`) without
touching the store. -/
def updateWorkflowStatusTry (getFails putFails : Bool) (store : KV) (now : Nat)
    (workflowId : String) (c : UpdateCall) : Except String KV :=
  if getFails then .error "kv get failed"
  else
    match kvGet store workflowId with
    | none => .ok store
    | some w =>
      if putFails then .error "kv put failed"
      else .ok (kvPut store workflowId (applyCall w now c))

/-- `updateWorkflowStatus` (lines 206-241): the `try` body wrapped in the
`catch`, which only logs (`console.error`) and leaves the store as it was.
The second component is the list of notifications handed to the Broadcaster
for this transition: the source contains no broadcast call at all — lines
235-236 read "Note: In a real implementation, you'd also send WebSocket
updates here" — so that list is empty on every path. -/
def updateWorkflowStatus (getFails putFails : Bool) (store : KV) (now : Nat)
    (workflowId : String) (c : UpdateCall) : KV × List Workflow :=
  match updateWorkflowStatusTry getFails putFails store now workflowId c with
  | .ok s => (s, [])
  | .error _ => (store, [])

/-- One scheduled `updateWorkflowStatus` call together with its injected
store faults: `(getFails, putFails, call)`. -/
abbrev FaultedCall := Bool × Bool × UpdateCall

/-- Run a sequence of `updateWorkflowStatus` calls for one id against the
store, collecting every notification handed to the Broadcaster. -/
def runUpdates (store : KV) (now : Nat) (workflowId : String) :
    List FaultedCall → KV × List Workflow
  | [] => (store, [])
  | (gF, pF, c) :: rest =>
    let step1 := updateWorkflowStatus gF pF store now workflowId c
    let step2 := runUpdates step1.1 (now + 1) workflowId rest
    (step2.1, step1.2 ++ step2.2)

/-- The record for the id after a sequence of calls: a faulted call persists
nothing (the `catch` leaves the stored record unchanged), a successful one
applies the field updates. -/
def foldRecord (w : Workflow) (now : Nat) : List FaultedCall → Workflow
  | [] => w
  | (gF, pF, c) :: rest =>
    if gF || pF then foldRecord w (now + 1) rest
    else foldRecord (applyCall w now c) (now + 1) rest

/-- The sequence of records actually persisted (in order) by a sequence of
calls for one id, starting from stored record `w`. -/
def persistedRecords (w : Workflow) (now : Nat) : List FaultedCall → List Workflow
  | [] => []
  | (gF, pF, c) :: rest =>
    if gF || pF then persistedRecords w (now + 1) rest
    else applyCall w now c :: persistedRecords (applyCall w now c) (now + 1) rest

/-- Attach a store-fault pattern to a call list (missing flags mean no
fault). -/
def withFaults : List (Bool × Bool) → List UpdateCall → List FaultedCall
  | _, [] => []
  | [], c :: cs => (false, false, c) :: withFaults [] cs
  | f :: fs, c :: cs => (f.1, f.2, c) :: withFaults fs cs

/-- Progress values visited by `for (let p = start; p <= stop; p += step)`
for the loop shapes used by the step simulators (`step` divides
`stop - start` in every loop of the source). -/
def loopProgress (start stop step : Int) : List Int :=
  (List.range ((stop - start).toNat / step.toNat + 1)).map
    (fun i => start + step * (i : Int))

example : loopProgress 10 30 5 = [10, 15, 20, 25, 30] := by decide
example : (loopProgress 50 80 2).length = 16 := by decide

/-- `simulateProblemAnalysis` (lines 43-48). -/
def analysisUpdates : List UpdateCall :=
  (loopProgress 10 30 5).map
    (fun p => ⟨"processing", some p, some "problem_analysis", none⟩)

/-- `simulateMeshGeneration` (lines 50-55). -/
def meshUpdates : List UpdateCall :=
  (loopProgress 30 50 5).map
    (fun p => ⟨"processing", some p, some "mesh_generation", none⟩)

/-- `simulatePINNTraining` (lines 57-75), metrics as in `Metrics`. -/
def trainingUpdates : List UpdateCall :=
  (loopProgress 50 80 2).map
    (fun p => ⟨"processing", some p, some "pinn_training",
               some ⟨(p - 50) * 100, (p - 50) * 2⟩⟩)

/-- `simulateModelValidation` (lines 77-82). -/
def validationUpdates : List UpdateCall :=
  (loopProgress 80 90 2).map
    (fun p => ⟨"processing", some p, some "model_validation", none⟩)

/-- `generateResultsAndVisualization` (lines 84-118): three status updates
(the RESULTS_KV write between the last two touches a different namespace and
is not a workflow-record update). -/
def resultsUpdates : List UpdateCall :=
  [⟨"processing", some 90, some "generating_results", none⟩,
   ⟨"processing", some 95, some "creating_visualization", none⟩,
   ⟨"processing", some 100, some "completed", none⟩]

/-- The full sequence of `updateWorkflowStatus` calls issued by a fault-free
run of `processWorkflow` (lines 14-41): the initial `processing 10
initializing` update, the five step simulators, then the terminal
`completed 100 finished` update. -/
def pipelineUpdates : List UpdateCall :=
  ⟨"processing", some 10, some "initializing", none⟩ ::
    (analysisUpdates ++ meshUpdates ++ trainingUpdates ++ validationUpdates ++
      resultsUpdates ++ [⟨"completed", some 100, some "finished", none⟩])

example : pipelineUpdates.length = 37 := by decide

/-- The `catch` clause of `processWorkflow` (line 38):
`updateWorkflowStatus(workflowId, 'failed', null, `error: ${error.message}`)`. -/
def failedCall (msg : String) : UpdateCall :=
  ⟨"failed", none, some ("error: " ++ msg), none⟩

/-- The call sequence of a `processWorkflow` run in which a step raises a
fault after `k` updates have been issued: every fault point of the `try`
block lies between two `updateWorkflowStatus` calls (the calls themselves
never throw), and the `catch` then issues the single `failed` update.
A real fault pre-empts the terminal `completed` update, so
`k < pipelineUpdates.length`. -/
def faultedUpdates (k : Nat) (msg : String) : List UpdateCall :=
  pipelineUpdates.take k ++ [failedCall msg]

/-! ### WebSocket manager (websocket-manager.js)

One Durable Object instance per workflow id; its `sessions` Map is the
registry.  A session's WebSocket object is modelled by the transport state
relevant to the code: whether `send` throws (`wsFailing`).  Timer callbacks
and event listeners become explicit step functions; `Math.random()` draws
become explicit arguments. -/

/-- One entry of the `sessions` Map (handleSession lines 42-47).
`subscriptions` (set by `subscribe_metrics`, never read) is elided. -/
structure Session where
  workflowId : Option String
  wsFailing : Bool
  connectedAt : Nat
  lastActivity : Nat
deriving Repr, DecidableEq

/-- The `sessions` Map: insertion-ordered sessionId-keyed registry. -/
abbrev Sessions := List (String × Session)

/-- `sessions.get(sessionId)`. -/
def sessionsGet (reg : Sessions) (sid : String) : Option Session :=
  match reg with
  | [] => none
  | (k, s) :: rest => if k = sid then some s else sessionsGet rest sid

/-- `sessions.set(sessionId, session)`. -/
def sessionsSet (reg : Sessions) (sid : String) (s : Session) : Sessions :=
  match reg with
  | [] => [(sid, s)]
  | (k, s') :: rest =>
    if k = sid then (sid, s) :: rest else (k, s') :: sessionsSet rest sid s

/-- `sessions.delete(sessionId)` (on a Map the key occurs at most once;
filtering every occurrence coincides with that under the Map invariant). -/
def sessionsDelete (reg : Sessions) (sid : String) : Sessions :=
  reg.filter (fun e => e.1 ≠ sid)

/-- Outbound wire messages (the objects passed to `sendMessage`), carrying
the payload fields the claims inspect.  Float-valued mock metrics inside the
payloads are produced from `Math.random()` and inspected by no claim; the
random draws that do shape a payload (progress, step index) appear as the
explicit `Int`/`Nat` arguments of the senders below. -/
inductive OutMsg where
  | connection_established (sessionId : String) (workflowId : Option String)
  | pong
  | workflow_status (workflowId : Option String) (status : String)
      (progress : Int) (currentStep : String)
  | workflow_progress (workflowId : Option String) (progress : Int)
      (step : String)
deriving Repr, DecidableEq

/-- Inbound control messages handled by `handleMessage` (lines 83-100). -/
inductive InMsg where
  | ping
  | subscribe_metrics (metrics : List String)
  | request_status
deriving Repr, DecidableEq

/-- `webSocket.send` as the transport sees it: throws exactly when the
socket is failing. -/
def sendRaw (s : Session) (m : OutMsg) : Except String OutMsg :=
  if s.wsFailing then .error "send failed" else .ok m

/-- `sendMessage` (lines 103-112): `try { webSocket.send(...) } catch
{ console.error(...) }`.  The catch only logs: no session is removed, no
error is re-raised.  The result records whether the send succeeded. -/
def sendMessage (s : Session) (m : OutMsg) : Bool :=
  match sendRaw s m with
  | .ok _ => true
  | .error _ => false

/-- `handleSession` (lines 36-73): accept the socket, store the session
under a fresh session id, and send the one `connection_established`
message.  The event listeners it registers are modelled by `handleMessage`
(message), `onSocketClosed` (close/error), and the interval it starts by
`periodicTick`.  No Store read happens here and no snapshot of the workflow
record is sent. -/
def handleSession (reg : Sessions) (sid : String) (now : Nat)
    (workflowId : Option String) (failing : Bool) : Sessions × List OutMsg :=
  let s : Session :=
    { workflowId := workflowId, wsFailing := failing
      connectedAt := now, lastActivity := now }
  (sessionsSet reg sid s, [OutMsg.connection_established sid workflowId])

/-- The `close` and `error` event listeners (lines 62-69): delete the
session from the registry. -/
def onSocketClosed (reg : Sessions) (sid : String) : Sessions :=
  sessionsDelete reg sid

/-- `sendWorkflowStatus` (lines 114-135).  The source comment reads "In a
real implementation, you'd fetch from KV storage.  For now, send a mock
status": the function takes no store at all and always reports
`status: 'processing'`, `currentStep: 'pinn_training'`, with
`progress: Math.random() * 100` modelled by the draw `r`. -/
def sendWorkflowStatus (workflowId : Option String) (r : Int) : OutMsg :=
  OutMsg.workflow_status workflowId "processing" r "pinn_training"

/-- `handleMessage` (lines 75-101): look the session up (ignore the message
if it is gone), refresh `lastActivity`, then dispatch on the message type.
`r` is the random draw consumed when a `request_status` reply is built.
The returned messages are those handed to `sendMessage` for this session's
socket. -/
def handleMessage (reg : Sessions) (sid : String) (now : Nat) (m : InMsg)
    (r : Int) : Sessions × List OutMsg :=
  match sessionsGet reg sid with
  | none => (reg, [])
  | some s =>
    let reg2 := sessionsSet reg sid { s with lastActivity := now }
    match m with
    | .ping => (reg2, [OutMsg.pong])
    | .subscribe_metrics _ => (reg2, [])
    | .request_status => (reg2, [sendWorkflowStatus s.workflowId r])

/-- The step names drawn from by the periodic updates (lines 160-169). -/
def randomSteps : List String :=
  ["problem_analysis", "mesh_generation", "pinn_training",
   "model_validation", "results_generation"]

/-- One firing of the interval installed by `startPeriodicUpdates`
(lines 137-158): if the session is gone the interval clears itself
(`none`); otherwise a `workflow_progress` message is sent whose payload is
built from fresh random draws — `progress: Math.min(100, Math.random() *
100)` from the draw `rp`, `step: getRandomStep()` from the index draw `si` —
independent of the Store and of any orchestrator transition.  The result
carries the message and whether its send succeeded. -/
def periodicTick (reg : Sessions) (sid : String) (workflowId : Option String)
    (rp : Int) (si : Nat) : Option (OutMsg × Bool) :=
  match sessionsGet reg sid with
  | none => none
  | some s =>
    let m := OutMsg.workflow_progress workflowId (min 100 rp)
      (randomSteps.getD (si % 5) "")
    some (m, sendMessage s m)

/-- The fan-out loop of `broadcastToWorkflow` (lines 186-196): walk the
registry in order and attempt `sendMessage` for every session whose
`workflowId` matches.  Returns the attempt log `(sessionId, send
succeeded)` in registry order. -/
def broadcastAttempts (reg : Sessions) (workflowId : String) (m : OutMsg) :
    List (String × Bool) :=
  match reg with
  | [] => []
  | (sid, s) :: rest =>
    if s.workflowId = some workflowId then
      (sid, sendMessage s m) :: broadcastAttempts rest workflowId m
    else broadcastAttempts rest workflowId m

/-- `broadcastToWorkflow` (lines 186-196): the registry it leaves behind
(unchanged — `sendMessage` swallows transport errors without touching
`sessions`) paired with the attempt log.  `Promise.all` over the
`sendMessage` promises never rejects, since each settles normally. -/
def broadcastToWorkflow (reg : Sessions) (workflowId : String) (m : OutMsg) :
    Sessions × List (String × Bool) :=
  (reg, broadcastAttempts reg workflowId m)

/-- Run a sequence of `broadcastToWorkflow` calls (`(workflowId, message)`
pairs) and return the final registry together with the flattened, ordered
log of successful deliveries `(sessionId, message)`. -/
def runPublishes (reg : Sessions) :
    List (String × OutMsg) → Sessions × List (String × OutMsg)
  | [] => (reg, [])
  | (wid, m) :: rest =>
    let b := broadcastToWorkflow reg wid m
    let later := runPublishes b.1 rest
    (later.1,
     (b.2.filterMap (fun a => if a.2 then some (a.1, m) else none)) ++ later.2)

/-- The messages a given session received, in order, from a delivery log. -/
def deliveredTo (sid : String) (log : List (String × OutMsg)) : List OutMsg :=
  log.filterMap (fun e => if e.1 = sid then some e.2 else none)

/-- The successful deliveries of one broadcast call. -/
def roundDeliveries (reg : Sessions) (wid : String) (m : OutMsg) :
    List (String × OutMsg) :=
  (broadcastAttempts reg wid m).filterMap
    (fun a => if a.2 then some (a.1, m) else none)

/-- Executable non-decreasing check (the `Chain'` decidability instance does
not kernel-reduce; this checker does). -/
def nondecreasing : List Int → Bool
  | [] => true
  | [_] => true
  | a :: b :: t => a ≤ b && nondecreasing (b :: t)

/-! ### Helper lemmas -/

lemma applyCall_status (w : Workflow) (now : Nat) (c : UpdateCall) :
    (applyCall w now c).status = c.status := by
  obtain ⟨st, pr, sp, me⟩ := c
  cases pr <;> cases sp <;> cases me <;> rfl

lemma applyCall_progress (w : Workflow) (now : Nat) (c : UpdateCall) :
    (applyCall w now c).progress = c.progress.getD w.progress := by
  obtain ⟨st, pr, sp, me⟩ := c
  cases pr <;> cases sp <;> cases me <;> rfl

lemma applyCall_current_step (w : Workflow) (now : Nat) (c : UpdateCall) :
    (applyCall w now c).current_step = c.step.getD w.current_step := by
  obtain ⟨st, pr, sp, me⟩ := c
  cases pr <;> cases sp <;> cases me <;> rfl

lemma applyCall_errorMessage (w : Workflow) (now : Nat) (c : UpdateCall) :
    (applyCall w now c).errorMessage = w.errorMessage := by
  obtain ⟨st, pr, sp, me⟩ := c
  cases pr <;> cases sp <;> cases me <;> rfl

lemma applyCall_est (w : Workflow) (now : Nat) (c : UpdateCall) :
    (applyCall w now c).estimated_remaining_time
      = some (remainingEstimate c.progress) := by
  obtain ⟨st, pr, sp, me⟩ := c
  cases pr <;> cases sp <;> cases me <;> rfl

lemma kvGet_kvPut_self (s : KV) (k : String) (w : Workflow) :
    kvGet (kvPut s k w) k = some w := by
  induction s with
  | nil => simp [kvPut, kvGet]
  | cons e rest ih =>
    by_cases h : e.1 = k
    · simp [kvPut, kvGet, h]
    · simp [kvPut, kvGet, h, ih]

/-- No call to `updateWorkflowStatus` hands anything to the Broadcaster:
the function has no broadcast path. -/
lemma updateWorkflowStatus_snd (gF pF : Bool) (store : KV) (now : Nat)
    (id : String) (c : UpdateCall) :
    (updateWorkflowStatus gF pF store now id c).2 = [] := by
  unfold updateWorkflowStatus
  cases updateWorkflowStatusTry gF pF store now id c <;> rfl

/-- A store fault on either KV operation leaves the store untouched. -/
lemma updateWorkflowStatus_fault (gF pF : Bool) (store : KV) (now : Nat)
    (id : String) (c : UpdateCall) (h : (gF || pF) = true) :
    updateWorkflowStatus gF pF store now id c = (store, []) := by
  rcases Bool.or_eq_true_iff.mp h with hg | hp
  · subst hg; rfl
  · subst hp
    unfold updateWorkflowStatus updateWorkflowStatusTry
    cases gF
    · cases kvGet store id <;> rfl
    · rfl

/-- An unknown workflow id returns early: the store is unchanged and no
record is created. -/
lemma updateWorkflowStatus_missing (gF pF : Bool) (store : KV) (now : Nat)
    (id : String) (c : UpdateCall) (h : kvGet store id = none) :
    updateWorkflowStatus gF pF store now id c = (store, []) := by
  unfold updateWorkflowStatus updateWorkflowStatusTry
  cases gF
  · simp [h]
  · rfl

/-- A fault-free call on a present record performs the single overwrite. -/
lemma updateWorkflowStatus_ok (store : KV) (now : Nat) (id : String)
    (c : UpdateCall) (w : Workflow) (h : kvGet store id = some w) :
    updateWorkflowStatus false false store now id c
      = (kvPut store id (applyCall w now c), []) := by
  unfold updateWorkflowStatus updateWorkflowStatusTry
  simp [h]

/-- A whole run of orchestrator updates hands nothing to the Broadcaster. -/
lemma runUpdates_snd (store : KV) (now : Nat) (id : String)
    (l : List FaultedCall) : (runUpdates store now id l).2 = [] := by
  induction l generalizing store now with
  | nil => rfl
  | cons x rest ih =>
    obtain ⟨gF, pF, c⟩ := x
    simp [runUpdates, updateWorkflowStatus_snd, ih]

/-- The stored record after a run is `foldRecord` of the calls. -/
lemma runUpdates_get (store : KV) (now : Nat) (id : String) (w : Workflow)
    (h : kvGet store id = some w) (l : List FaultedCall) :
    kvGet (runUpdates store now id l).1 id = some (foldRecord w now l) := by
  induction l generalizing store now w with
  | nil => simpa [runUpdates, foldRecord] using h
  | cons x rest ih =>
    obtain ⟨gF, pF, c⟩ := x
    by_cases hf : (gF || pF) = true
    · rw [runUpdates, updateWorkflowStatus_fault gF pF store now id c hf]
      rw [foldRecord, if_pos hf]
      exact ih store (now + 1) w h
    · simp only [Bool.or_eq_true, not_or, Bool.not_eq_true] at hf
      obtain ⟨hg, hp⟩ := hf
      subst hg hp
      rw [runUpdates, updateWorkflowStatus_ok store now id c w h]
      rw [foldRecord]
      simp only [Bool.or_self, if_neg Bool.false_ne_true]
      exact ih _ (now + 1) _ (kvGet_kvPut_self store id (applyCall w now c))

lemma foldRecord_append (w : Workflow) (now : Nat) (l1 l2 : List FaultedCall) :
    foldRecord w now (l1 ++ l2)
      = foldRecord (foldRecord w now l1) (now + l1.length) l2 := by
  induction l1 generalizing w now with
  | nil => simp [foldRecord]
  | cons x rest ih =>
    obtain ⟨gF, pF, c⟩ := x
    by_cases hf : (gF || pF) = true
    · rw [List.cons_append, foldRecord, if_pos hf, foldRecord, if_pos hf, ih]
      congr 1
      simp only [List.length_cons]
      omega
    · rw [List.cons_append, foldRecord, if_neg hf, foldRecord, if_neg hf, ih]
      congr 1
      simp only [List.length_cons]
      omega

/-- Every persisted record takes its status from one of the calls. -/
lemma persistedRecords_status_mem (w : Workflow) (now : Nat)
    (l : List FaultedCall) :
    ∀ r ∈ persistedRecords w now l, ∃ x ∈ l, r.status = x.2.2.status := by
  induction l generalizing w now with
  | nil => simp [persistedRecords]
  | cons x rest ih =>
    obtain ⟨gF, pF, c⟩ := x
    intro r hr
    by_cases hf : (gF || pF) = true
    · rw [persistedRecords, if_pos hf] at hr
      obtain ⟨y, hy, he⟩ := ih w (now + 1) r hr
      exact ⟨y, List.mem_cons_of_mem _ hy, he⟩
    · rw [persistedRecords, if_neg hf] at hr
      rcases List.mem_cons.mp hr with hr | hr
      · exact ⟨(gF, pF, c), List.mem_cons_self _ _,
          by rw [hr, applyCall_status]⟩
      · obtain ⟨y, hy, he⟩ := ih _ (now + 1) r hr
        exact ⟨y, List.mem_cons_of_mem _ hy, he⟩

lemma withFaults_map (fs : List (Bool × Bool)) (cs : List UpdateCall) :
    (withFaults fs cs).map (fun x => x.2.2) = cs := by
  induction cs generalizing fs with
  | nil => cases fs <;> rfl
  | cons c rest ih =>
    cases fs with
    | nil => simpa [withFaults] using ih []
    | cons f fs' => simpa [withFaults] using ih fs'

lemma withFaults_filterMap_progress (fs : List (Bool × Bool))
    (cs : List UpdateCall) :
    (withFaults fs cs).filterMap (fun x => x.2.2.progress)
      = cs.filterMap (fun c => c.progress) := by
  conv_rhs => rw [← withFaults_map fs cs, List.filterMap_map]
  rfl

lemma chain'_le_cons_of_le {a b : Int} {l : List Int} (hab : a ≤ b)
    (h : List.Chain' (· ≤ ·) (b :: l)) : List.Chain' (· ≤ ·) (a :: l) := by
  cases l with
  | nil => simp
  | cons c t =>
    rw [List.chain'_cons] at h ⊢
    exact ⟨le_trans hab h.1, h.2⟩

/-- Key invariant behind C4: if the progress values carried by a call
sequence are non-decreasing and bounded below by the stored progress, the
sequence of persisted progress values is non-decreasing — whatever store
faults skip individual persists (a skipped persist leaves the stored record
at its previous value, and later calls still carry larger progress). -/
lemma persisted_progress_chain (w : Workflow) (now : Nat)
    (l : List FaultedCall)
    (h : List.Chain' (· ≤ ·)
      (w.progress :: l.filterMap (fun x => x.2.2.progress))) :
    List.Chain' (· ≤ ·)
      (w.progress :: (persistedRecords w now l).map (fun r => r.progress)) := by
  induction l generalizing w now with
  | nil => simp [persistedRecords]
  | cons x rest ih =>
    obtain ⟨gF, pF, c⟩ := x
    by_cases hf : (gF || pF) = true
    · rw [persistedRecords, if_pos hf]
      apply ih
      cases hc : c.progress with
      | none => simpa [List.filterMap_cons, hc] using h
      | some q =>
        simp only [List.filterMap_cons, hc] at h
        rw [List.chain'_cons] at h
        exact chain'_le_cons_of_le h.1 h.2
    · rw [persistedRecords, if_neg hf, List.map_cons]
      cases hc : c.progress with
      | none =>
        have hp : (applyCall w now c).progress = w.progress := by
          rw [applyCall_progress, hc]; rfl
        simp only [List.filterMap_cons, hc] at h
        rw [List.chain'_cons]
        refine ⟨by rw [hp], ?_⟩
        exact ih (applyCall w now c) (now + 1) (by rw [hp]; exact h)
      | some q =>
        have hp : (applyCall w now c).progress = q := by
          rw [applyCall_progress, hc]; rfl
        simp only [List.filterMap_cons, hc] at h
        rw [List.chain'_cons] at h
        rw [List.chain'_cons]
        refine ⟨by rw [hp]; exact h.1, ?_⟩
        exact ih (applyCall w now c) (now + 1) (by rw [hp]; exact h.2)

lemma dropLast_cons_cons {α : Type} (a b : α) (l : List α) :
    (a :: b :: l).dropLast = a :: (b :: l).dropLast := rfl

lemma dropLast_cons_ne_nil {α : Type} (a : α) {l : List α} (h : l ≠ []) :
    (a :: l).dropLast = a :: l.dropLast := by
  cases l with
  | nil => exact absurd rfl h
  | cons b t => rfl

/-- Key invariant behind C7: if every call except possibly the last carries
status `processing`, then every persisted record except possibly the last
has status `processing` — i.e. a record with a terminal status is never
followed by a further persisted record, under any store-fault pattern. -/
lemma persistedRecords_dropLast_status (w : Workflow) (now : Nat)
    (l : List FaultedCall)
    (h : ∀ x ∈ l.dropLast, x.2.2.status = "processing") :
    ∀ r ∈ (persistedRecords w now l).dropLast, r.status = "processing" := by
  induction l generalizing w now with
  | nil => intro r hr; simp [persistedRecords] at hr
  | cons x rest ih =>
    obtain ⟨gF, pF, c⟩ := x
    have hsub : ∀ y ∈ rest.dropLast, y.2.2.status = "processing" := by
      intro y hy
      apply h
      cases rest with
      | nil => simp at hy
      | cons z t => rw [dropLast_cons_cons]; exact List.mem_cons_of_mem _ hy
    intro r hr
    by_cases hf : (gF || pF) = true
    · rw [persistedRecords, if_pos hf] at hr
      exact ih w (now + 1) hsub r hr
    · rw [persistedRecords, if_neg hf] at hr
      cases hrest : persistedRecords (applyCall w now c) (now + 1) rest with
      | nil => rw [hrest] at hr; simp at hr
      | cons r2 t2 =>
        rw [hrest, dropLast_cons_cons] at hr
        have hrestne : rest ≠ [] := by
          intro he
          rw [he] at hrest
          simp [persistedRecords] at hrest
        rcases List.mem_cons.mp hr with hr1 | hr2
        · have hcp : c.status = "processing" := by
            have := h (gF, pF, c)
              (by rw [dropLast_cons_ne_nil _ hrestne]
                  exact List.mem_cons_self _ _)
            exact this
          rw [hr1, applyCall_status]
          exact hcp
        · exact ih (applyCall w now c) (now + 1) hsub r (by rw [hrest]; exact hr2)

lemma mem_take_mono {α : Type} {l : List α} {k n : Nat} (hkn : k ≤ n) {c : α}
    (h : c ∈ l.take k) : c ∈ l.take n := by
  have he : l.take k = (l.take n).take k := by
    rw [List.take_take, Nat.min_eq_left hkn]
  rw [he] at h
  exact List.take_subset _ _ h

lemma chain'_of_nondecreasing :
    ∀ l : List Int, nondecreasing l = true → List.Chain' (· ≤ ·) l
  | [], _ => List.chain'_nil
  | [_], _ => List.chain'_singleton _
  | a :: b :: t, h => by
    rw [nondecreasing, Bool.and_eq_true, decide_eq_true_eq] at h
    rw [List.chain'_cons]
    exact ⟨h.1, chain'_of_nondecreasing (b :: t) h.2⟩

/-- The progress values carried by the fault-free pipeline, in order. -/
lemma pipeline_progress_chain :
    List.Chain' (· ≤ ·) (pipelineUpdates.filterMap (fun c => c.progress)) :=
  chain'_of_nondecreasing _ (by decide)

lemma pipeline_progress_head :
    (pipelineUpdates.filterMap (fun c => c.progress)).head? = some 10 := by
  decide

/-- Every pipeline call except the terminal `completed` one has status
`processing`. -/
lemma pipeline_dropLast_processing :
    ∀ c ∈ pipelineUpdates.dropLast, c.status = "processing" := by decide

lemma pipeline_dropLast_eq_take :
    pipelineUpdates.dropLast = pipelineUpdates.take 36 := by decide

/-- No pipeline call carries status `failed`. -/
lemma pipeline_not_failed : ∀ c ∈ pipelineUpdates, c.status ≠ "failed" := by
  decide

/-- On every progress value the pipeline can carry, the stored
remaining-time estimate agrees with the spec formula
`300 * (1 - p / 100)` (the clamp at `p = 100` included). -/
lemma pipeline_remainingEstimate :
    ∀ p ∈ pipelineUpdates.filterMap (fun c => c.progress),
      remainingEstimate (some p) = 300 * (100 - p) / 100 := by decide

lemma sendMessage_eq (s : Session) (m : OutMsg) :
    sendMessage s m = !s.wsFailing := by
  cases hw : s.wsFailing <;> simp [sendMessage, sendRaw, hw]

/-- The attempt log of one broadcast: exactly the matching sessions, in
registry order, each attempt succeeding iff that session's socket works. -/
lemma broadcastAttempts_eq (reg : Sessions) (wid : String) (m : OutMsg) :
    broadcastAttempts reg wid m
      = (reg.filter (fun e => e.2.workflowId = some wid)).map
          (fun e => (e.1, !e.2.wsFailing)) := by
  induction reg with
  | nil => rfl
  | cons e rest ih =>
    obtain ⟨k, s⟩ := e
    by_cases hw : s.workflowId = some wid <;>
      simp [broadcastAttempts, List.filter_cons, hw, ih, sendMessage_eq]

/-- Deleting one session deletes exactly its attempt-log entries. -/
lemma broadcastAttempts_delete (reg : Sessions) (sid wid : String)
    (m : OutMsg) :
    broadcastAttempts (sessionsDelete reg sid) wid m
      = (broadcastAttempts reg wid m).filter (fun a => a.1 ≠ sid) := by
  induction reg with
  | nil => rfl
  | cons e rest ih =>
    obtain ⟨k, s⟩ := e
    have hdel : sessionsDelete ((k, s) :: rest) sid
        = if k ≠ sid then (k, s) :: sessionsDelete rest sid
          else sessionsDelete rest sid := by
      rw [sessionsDelete, List.filter_cons]
      by_cases hk : k = sid <;> simp [hk, sessionsDelete]
    by_cases hk : k = sid
    · rw [hdel, if_neg (by simp [hk]), ih]
      by_cases hw : s.workflowId = some wid
      · rw [broadcastAttempts, if_pos hw, List.filter_cons]
        simp [hk]
      · rw [broadcastAttempts, if_neg hw]
    · rw [hdel, if_pos hk]
      by_cases hw : s.workflowId = some wid
      · rw [broadcastAttempts, if_pos hw, broadcastAttempts, if_pos hw,
          List.filter_cons, ih]
        simp [hk]
      · rw [broadcastAttempts, if_neg hw, broadcastAttempts, if_neg hw, ih]

lemma runPublishes_cons (reg : Sessions) (wid : String) (m : OutMsg)
    (rest : List (String × OutMsg)) :
    runPublishes reg ((wid, m) :: rest)
      = ((runPublishes reg rest).1,
         roundDeliveries reg wid m ++ (runPublishes reg rest).2) := rfl

lemma deliveredTo_append (sid : String) (l1 l2 : List (String × OutMsg)) :
    deliveredTo sid (l1 ++ l2) = deliveredTo sid l1 ++ deliveredTo sid l2 :=
  List.filterMap_append _ _ _

/-- One broadcast step of `roundDeliveries` over a matching head session. -/
lemma roundDeliveries_cons_match (k : String) (s : Session) (rest : Sessions)
    (wid : String) (m : OutMsg) (hw : s.workflowId = some wid) :
    roundDeliveries ((k, s) :: rest) wid m
      = if s.wsFailing = false then (k, m) :: roundDeliveries rest wid m
        else roundDeliveries rest wid m := by
  rw [roundDeliveries, broadcastAttempts, if_pos hw, List.filterMap_cons,
    sendMessage_eq]
  cases hfail : s.wsFailing <;> simp [roundDeliveries]

lemma roundDeliveries_cons_nomatch (k : String) (s : Session)
    (rest : Sessions) (wid : String) (m : OutMsg)
    (hw : ¬s.workflowId = some wid) :
    roundDeliveries ((k, s) :: rest) wid m = roundDeliveries rest wid m := by
  rw [roundDeliveries, broadcastAttempts, if_neg hw]
  rfl

lemma deliveredTo_cons (sid a : String) (m : OutMsg)
    (l : List (String × OutMsg)) :
    deliveredTo sid ((a, m) :: l)
      = if a = sid then m :: deliveredTo sid l else deliveredTo sid l := by
  rw [deliveredTo, List.filterMap_cons]
  by_cases h : a = sid <;> simp [h, deliveredTo]

/-- A session that is not in the registry receives nothing from a
broadcast. -/
lemma deliveredTo_round_not_mem (reg : Sessions) (sid : String)
    (hsid : sid ∉ reg.map Prod.fst) (wid : String) (m : OutMsg) :
    deliveredTo sid (roundDeliveries reg wid m) = [] := by
  induction reg with
  | nil => rfl
  | cons e rest ih =>
    obtain ⟨k, s⟩ := e
    rw [List.map_cons, List.mem_cons] at hsid
    push_neg at hsid
    have hk : ¬k = sid := fun he => hsid.1 he.symm
    by_cases hw : s.workflowId = some wid
    · rw [roundDeliveries_cons_match k s rest wid m hw]
      cases hfail : s.wsFailing
      · rw [if_pos rfl, deliveredTo_cons, if_neg hk]
        exact ih hsid.2
      · rw [if_neg (by simp [hfail])]
        exact ih hsid.2
    · rw [roundDeliveries_cons_nomatch k s rest wid m hw]
      exact ih hsid.2

/-- What one registered session receives from one broadcast: the message
exactly when its workflow id matches and its socket works (registry keys
are unique, as they are for a JS `Map`). -/
lemma deliveredTo_round (reg : Sessions) (hnd : (reg.map Prod.fst).Nodup)
    (sid : String) (t : Session) (hget : sessionsGet reg sid = some t)
    (wid : String) (m : OutMsg) :
    deliveredTo sid (roundDeliveries reg wid m)
      = if t.workflowId = some wid ∧ t.wsFailing = false then [m] else [] := by
  induction reg with
  | nil => exact absurd hget (by simp [sessionsGet])
  | cons e rest ih =>
    obtain ⟨k, s⟩ := e
    rw [List.map_cons, List.nodup_cons] at hnd
    by_cases hk : k = sid
    · have ht : s = t := by
        rw [sessionsGet, if_pos hk] at hget
        exact Option.some_injective _ hget
      subst ht
      have hrest : sid ∉ rest.map Prod.fst := hk ▸ hnd.1
      by_cases hw : s.workflowId = some wid
      · rw [roundDeliveries_cons_match k s rest wid m hw]
        cases hfail : s.wsFailing
        · rw [if_pos rfl, deliveredTo_cons, if_pos hk,
            deliveredTo_round_not_mem rest sid hrest wid m,
            if_pos ⟨hw, rfl⟩]
        · rw [if_neg (by simp [hfail]),
            deliveredTo_round_not_mem rest sid hrest wid m,
            if_neg (by rintro ⟨-, hc⟩; exact absurd hc (by simp))]
      · rw [roundDeliveries_cons_nomatch k s rest wid m hw,
          deliveredTo_round_not_mem rest sid hrest wid m,
          if_neg (by rintro ⟨hc, -⟩; exact hw hc)]
    · have hget2 : sessionsGet rest sid = some t := by
        rwa [sessionsGet, if_neg hk] at hget
      by_cases hw : s.workflowId = some wid
      · rw [roundDeliveries_cons_match k s rest wid m hw]
        cases hfail : s.wsFailing
        · rw [if_pos rfl, deliveredTo_cons, if_neg hk]
          exact ih hnd.2 hget2
        · rw [if_neg (by simp [hfail])]
          exact ih hnd.2 hget2
      · rw [roundDeliveries_cons_nomatch k s rest wid m hw]
        exact ih hnd.2 hget2

/-- What one registered, working session receives from a whole sequence of
broadcasts: exactly the messages published for its workflow id, in publish
order — independent of which other sessions exist, fail, or match. -/
lemma runPublishes_deliveredTo (reg : Sessions)
    (hnd : (reg.map Prod.fst).Nodup) (sid : String) (t : Session)
    (hget : sessionsGet reg sid = some t) (W : String)
    (hW : t.workflowId = some W) (hok : t.wsFailing = false)
    (pubs : List (String × OutMsg)) :
    deliveredTo sid (runPublishes reg pubs).2
      = (pubs.filter (fun p => p.1 = W)).map (fun p => p.2) := by
  induction pubs with
  | nil => rfl
  | cons p rest ih =>
    obtain ⟨wid, m⟩ := p
    rw [runPublishes_cons, deliveredTo_append,
      deliveredTo_round reg hnd sid t hget wid m]
    by_cases hw : wid = W
    · subst hw
      rw [if_pos ⟨hW, hok⟩, List.filter_cons]
      simp [ih]
    · rw [if_neg (by rintro ⟨hc, -⟩; rw [hW] at hc; exact hw (Option.some_injective _ hc).symm)]
      rw [List.filter_cons]
      simp [hw, ih]

lemma sessionsGet_sessionsSet_self (reg : Sessions) (sid : String)
    (s : Session) : sessionsGet (sessionsSet reg sid s) sid = some s := by
  induction reg with
  | nil => simp [sessionsSet, sessionsGet]
  | cons e rest ih =>
    by_cases h : e.1 = sid
    · simp [sessionsSet, sessionsGet, h]
    · simp [sessionsSet, sessionsGet, h, ih]

/-- No update ever writes the (absent) `errorMessage` key. -/
lemma foldRecord_errorMessage (w : Workflow) (now : Nat)
    (l : List FaultedCall) :
    (foldRecord w now l).errorMessage = w.errorMessage := by
  induction l generalizing w now with
  | nil => rfl
  | cons x rest ih =>
    obtain ⟨gF, pF, c⟩ := x
    by_cases hf : (gF || pF) = true
    · rw [foldRecord, if_pos hf]; exact ih w (now + 1)
    · rw [foldRecord, if_neg hf, ih, applyCall_errorMessage]

lemma withFaults_nil (cs : List UpdateCall) :
    withFaults [] cs = cs.map (fun c => (false, false, c)) := by
  induction cs with
  | nil => rfl
  | cons c rest ih => rw [withFaults, ih]; rfl

lemma withFaults_call_mem {fs : List (Bool × Bool)} {cs : List UpdateCall}
    {x : FaultedCall} (h : x ∈ withFaults fs cs) : x.2.2 ∈ cs := by
  have h2 : x.2.2 ∈ (withFaults fs cs).map (fun y => y.2.2) :=
    List.mem_map_of_mem _ h
  rwa [withFaults_map] at h2

lemma withFaults_dropLast_call {fs : List (Bool × Bool)}
    {cs : List UpdateCall} {x : FaultedCall}
    (h : x ∈ (withFaults fs cs).dropLast) : x.2.2 ∈ cs.dropLast := by
  have h2 : x.2.2 ∈ ((withFaults fs cs).dropLast).map (fun y => y.2.2) :=
    List.mem_map_of_mem _ h
  rwa [List.map_dropLast, withFaults_map] at h2

/-! ### Claims -/

/-- Claim C1, counterexample: a fault-free `updateWorkflowStatus` call on an
existing record durably stores the new record (progress 10 is visible in the
store afterwards), yet hands no notification to the Broadcaster — refuting
"a notification of that transition is handed to the Broadcaster if and only
if the put succeeded". -/
theorem C1_put_succeeds_without_notification :
    ((kvGet (updateWorkflowStatus false false
          (kvPut [] "wf1" (initialWorkflow 0)) 1 "wf1"
          ⟨"processing", some 10, some "initializing", none⟩).1 "wf1").map
        (fun r => r.progress) = some 10)
    ∧ (updateWorkflowStatus false false (kvPut [] "wf1" (initialWorkflow 0)) 1
        "wf1" ⟨"processing", some 10, some "initializing", none⟩).2 = [] :=
  ⟨rfl, rfl⟩

/-- Claim C1, amended: the orchestrator computes the new record and calls
`Store.put`, but hands no notification to the Broadcaster on any transition,
whether the put succeeds or fails; in particular a transition whose put
fails is never broadcast (vacuously — nothing ever is).  The WebSocket
manager's outbound traffic is timer-driven and independent of puts. -/
theorem C1_no_notification_on_any_transition (gF pF : Bool) (store : KV)
    (now : Nat) (id : String) (c : UpdateCall) (l : List FaultedCall) :
    (updateWorkflowStatus gF pF store now id c).2 = []
    ∧ (runUpdates store now id l).2 = [] :=
  ⟨updateWorkflowStatus_snd gF pF store now id c,
   runUpdates_snd store now id l⟩

/-- Claim C10: `updateWorkflowStatus` never lets an exception escape: an
unknown workflow id returns leaving the store unchanged (no record is
created), a failing KV get or put is caught leaving the store unchanged,
every call returns normally with either the unchanged store or the single
intended overwrite, and — since a store fault merely skips a persist — a
fault-free pipeline run never stores a record with status `failed`,
whatever store faults occur. -/
theorem C10_update_contains_all_faults (gF pF : Bool) (store : KV)
    (now : Nat) (id : String) (c : UpdateCall) (w : Workflow)
    (fs : List (Bool × Bool)) :
    (kvGet store id = none →
      updateWorkflowStatus gF pF store now id c = (store, []))
    ∧ (gF = true → updateWorkflowStatus gF pF store now id c = (store, []))
    ∧ (pF = true → updateWorkflowStatus gF pF store now id c = (store, []))
    ∧ (updateWorkflowStatus gF pF store now id c = (store, [])
       ∨ ∃ w2, kvGet store id = some w2
           ∧ updateWorkflowStatus gF pF store now id c
               = (kvPut store id (applyCall w2 now c), []))
    ∧ (∀ r ∈ persistedRecords w now (withFaults fs pipelineUpdates),
        r.status ≠ "failed") := by
  refine ⟨fun h => updateWorkflowStatus_missing gF pF store now id c h,
    fun h => updateWorkflowStatus_fault gF pF store now id c (by rw [h]; rfl),
    fun h => updateWorkflowStatus_fault gF pF store now id c (by rw [h]; simp),
    ?_, ?_⟩
  · cases hg : gF
    · cases hget : kvGet store id with
      | none => exact Or.inl (updateWorkflowStatus_missing false pF store now id c hget)
      | some w2 =>
        cases hp : pF
        · exact Or.inr ⟨w2, rfl, updateWorkflowStatus_ok store now id c w2 hget⟩
        · exact Or.inl (updateWorkflowStatus_fault false true store now id c rfl)
    · exact Or.inl (updateWorkflowStatus_fault true pF store now id c rfl)
  · intro r hr
    obtain ⟨x, hx, hs⟩ := persistedRecords_status_mem w now _ r hr
    rw [hs]
    exact pipeline_not_failed _ (withFaults_call_mem hx)

/-- Claim C10, witness: with both KV operations failing on an empty store,
the call returns normally with the store unchanged. -/
theorem C10_witness :
    updateWorkflowStatus true true [] 0 "wf1"
        ⟨"processing", some 10, some "initializing", none⟩ = ([], []) :=
  (C10_update_contains_all_faults true true [] 0 "wf1"
    ⟨"processing", some 10, some "initializing", none⟩
    (initialWorkflow 0) []).1 rfl

/-- Claim C8: every update the orchestrator actually persists that carries a
numeric progress value `p` (the pipeline's updates, in fault-free and
faulted runs alike, all carry `10 ≤ p ≤ 100`) stores
`estimated_remaining_time = 300 * (1 - p / 100)` — written with exact
integer arithmetic as `300 * (100 - p) / 100`, to which the source's
`Math.round` float expression evaluates for these `p` — and that value is
`0` at `p = 100`.  (The JS truthiness guard `if (progress && ...)` would
misstate the value only at `p = 0`, which no persisted update carries.) -/
theorem C8_remaining_time_formula (k : Nat) (msg : String) (c : UpdateCall)
    (hc : c ∈ pipelineUpdates ∨ c ∈ faultedUpdates k msg) (p : Int)
    (hp : c.progress = some p) (store : KV) (w : Workflow) (now : Nat)
    (id : String) (hw : kvGet store id = some w) :
    ((kvGet (updateWorkflowStatus false false store now id c).1 id).map
        (fun r => r.estimated_remaining_time)
      = some (some (300 * (100 - p) / 100)))
    ∧ (p = 100 → 300 * (100 - p) / 100 = 0) := by
  have hmem : p ∈ pipelineUpdates.filterMap (fun c => c.progress) := by
    rcases hc with hc | hc
    · exact List.mem_filterMap.mpr ⟨c, hc, hp⟩
    · rw [faultedUpdates] at hc
      rcases List.mem_append.mp hc with hc | hc


      · exact List.mem_filterMap.mpr
          ⟨c, List.take_subset k pipelineUpdates hc, hp⟩
      · rw [List.mem_singleton] at hc
        rw [hc] at hp
        exact absurd hp (by simp [failedCall])
  constructor
  · rw [updateWorkflowStatus_ok store now id c w hw, kvGet_kvPut_self]
    show some ((applyCall w now c).estimated_remaining_time)
      = some (some (300 * (100 - p) / 100))
    rw [applyCall_est, hp, pipeline_remainingEstimate p hmem]
  · intro h100
    rw [h100]
    simp

/-- Claim C8, witness: the first pipeline update (progress 10) stores a
remaining-time estimate of `300 * 90 / 100 = 270` seconds. -/
theorem C8_witness :
    ((⟨"processing", some 10, some "initializing", none⟩ : UpdateCall)
        ∈ pipelineUpdates)
    ∧ ((kvGet (updateWorkflowStatus false false
            (kvPut [] "wf1" (initialWorkflow 0)) 1 "wf1"
            ⟨"processing", some 10, some "initializing", none⟩).1 "wf1").map
          (fun r => r.estimated_remaining_time)
        = some (some (300 * (100 - 10) / 100)))
    ∧ ((10 : Int) = 100 → 300 * ((100 : Int) - 10) / 100 = 0) := by
  refine ⟨by decide, ?_⟩
  exact C8_remaining_time_formula 0 "" _ (Or.inl (by decide)) 10 rfl
    (kvPut [] "wf1" (initialWorkflow 0)) (initialWorkflow 0) 1 "wf1"
    (by decide)

/-- Claim C4: starting from any stored record with progress at most 10 (the
created record has progress 0), the sequence of progress values the
orchestrator persists for the id is non-decreasing, for the fault-free
pipeline and for every fault-pre-empted run, under every store-fault
pattern.  Every run here ends at its terminal status, so monotonicity holds
across the whole persisted sequence. -/
theorem C4_progress_nondecreasing (w : Workflow) (hw : w.progress ≤ 10)
    (now : Nat) (fs : List (Bool × Bool)) (k : Nat) (msg : String) :
    List.Chain' (· ≤ ·)
      ((persistedRecords w now (withFaults fs pipelineUpdates)).map
        (fun r => r.progress))
    ∧ List.Chain' (· ≤ ·)
      ((persistedRecords w now (withFaults fs (faultedUpdates k msg))).map
        (fun r => r.progress)) := by
  have hfull : List.Chain' (· ≤ ·)
      (w.progress :: pipelineUpdates.filterMap (fun c => c.progress)) := by
    rw [List.chain'_cons']
    refine ⟨?_, pipeline_progress_chain⟩
    intro h hh
    rw [pipeline_progress_head] at hh
    simp only [Option.mem_def, Option.some_inj] at hh
    omega
  have hfa : (faultedUpdates k msg).filterMap (fun c => c.progress)
      = (pipelineUpdates.take k).filterMap (fun c => c.progress) := by
    rw [faultedUpdates, List.filterMap_append]
    simp [failedCall]
  have hpre :
      (w.progress :: (faultedUpdates k msg).filterMap (fun c => c.progress))
        <+: (w.progress :: pipelineUpdates.filterMap (fun c => c.progress)) := by
    rw [hfa]
    refine ⟨(pipelineUpdates.drop k).filterMap (fun c => c.progress), ?_⟩
    rw [List.cons_append, ← List.filterMap_append, List.take_append_drop]
  constructor
  · refine (persisted_progress_chain w now _ ?_).tail
    rw [withFaults_filterMap_progress]
    exact hfull
  · refine (persisted_progress_chain w now _ ?_).tail
    rw [withFaults_filterMap_progress]
    exact hfull.prefix hpre

/-- Claim C4, witness: from the freshly created record, both the full run
and a run faulted during training have non-decreasing persisted progress. -/
theorem C4_witness :
    (initialWorkflow 0).progress ≤ 10
    ∧ (List.Chain' (· ≤ ·)
        ((persistedRecords (initialWorkflow 0) 1
            (withFaults [] pipelineUpdates)).map (fun r => r.progress))
      ∧ List.Chain' (· ≤ ·)
        ((persistedRecords (initialWorkflow 0) 1
            (withFaults [] (faultedUpdates 19 "boom"))).map
          (fun r => r.progress))) :=
  ⟨by decide,
   C4_progress_nondecreasing (initialWorkflow 0) (by decide) 1 [] 19 "boom"⟩

/-- Claim C7: in every run the orchestrator performs for an id — the
fault-free pipeline, or a run pre-empted by a step fault — every persisted
record except the final one has status `processing`, under every
store-fault pattern.  Hence once a record with terminal status (`completed`
or `failed`) is stored, no later update for that id occurs, and the
terminal record is never mutated. -/
theorem C7_terminal_is_final (w : Workflow) (now : Nat)
    (fs : List (Bool × Bool)) (k : Nat) (msg : String)
    (hk : k < pipelineUpdates.length) :
    (∀ r ∈ (persistedRecords w now (withFaults fs pipelineUpdates)).dropLast,
      r.status = "processing")
    ∧ (∀ r ∈ (persistedRecords w now
          (withFaults fs (faultedUpdates k msg))).dropLast,
      r.status = "processing") := by
  constructor
  · apply persistedRecords_dropLast_status
    intro x hx
    exact pipeline_dropLast_processing _ (withFaults_dropLast_call hx)
  · apply persistedRecords_dropLast_status
    intro x hx
    have h1 : x.2.2 ∈ (faultedUpdates k msg).dropLast :=
      withFaults_dropLast_call hx
    rw [faultedUpdates, List.dropLast_concat] at h1
    have hlen : pipelineUpdates.length = 37 := by decide
    have hk36 : k ≤ 36 := by omega
    have h2 : x.2.2 ∈ pipelineUpdates.take 36 := mem_take_mono hk36 h1
    rw [← pipeline_dropLast_eq_take] at h2
    exact pipeline_dropLast_processing _ h2

/-- Claim C7, witness: concrete instance of the terminal-is-final property
at fault point 3. -/
theorem C7_witness :
    3 < pipelineUpdates.length
    ∧ ((∀ r ∈ (persistedRecords (initialWorkflow 0) 1
            (withFaults [] pipelineUpdates)).dropLast,
          r.status = "processing")
      ∧ (∀ r ∈ (persistedRecords (initialWorkflow 0) 1
            (withFaults [] (faultedUpdates 3 "boom"))).dropLast,
          r.status = "processing")) :=
  ⟨by decide, C7_terminal_is_final (initialWorkflow 0) 1 [] 3 "boom" (by decide)⟩

/-- Claim C3, counterexample: a fault raised during training (after 19
updates, last persisted progress 64) leaves the stored record at status
`failed` with progress frozen — but its `errorMessage` field is unset (the
error text lands in `current_step` instead), and no `workflow_terminal`
message is broadcast: the orchestrator hands nothing to any broadcaster.
This refutes "a non-empty errorMessage field set" and "exactly one
workflow_terminal message ... is broadcast". -/
theorem C3_fault_sets_no_errorMessage :
    ((kvGet (runUpdates (kvPut [] "wf1" (initialWorkflow 0)) 1 "wf1"
          (withFaults [] (faultedUpdates 19 "training diverged"))).1 "wf1").map
        (fun r => (r.status, r.progress, r.errorMessage, r.current_step))
      = some ("failed", 64, none, "error: training diverged"))
    ∧ (runUpdates (kvPut [] "wf1" (initialWorkflow 0)) 1 "wf1"
        (withFaults [] (faultedUpdates 19 "training diverged"))).2 = [] :=
  ⟨rfl, rfl⟩

/-- Claim C3, amended: a step fault transitions the stored record directly
to status `failed`, with the fault description recorded in `current_step`
(as `"error: " ++ message`, not in an `errorMessage` field, which stays
absent), progress frozen at the last persisted value; and nothing is
broadcast, because the orchestrator hands no messages to any broadcaster. -/
theorem C3_fault_transitions_to_failed (k : Nat)
    (_hk : k < pipelineUpdates.length) (msg : String) (w : Workflow)
    (now : Nat) (store : KV) (id : String) :
    (foldRecord w now (withFaults [] (faultedUpdates k msg))).status = "failed"
    ∧ (foldRecord w now (withFaults [] (faultedUpdates k msg))).current_step
        = "error: " ++ msg
    ∧ (foldRecord w now (withFaults [] (faultedUpdates k msg))).progress
        = (foldRecord w now (withFaults [] (pipelineUpdates.take k))).progress
    ∧ (foldRecord w now (withFaults [] (faultedUpdates k msg))).errorMessage
        = w.errorMessage
    ∧ (runUpdates store now id (withFaults [] (faultedUpdates k msg))).2
        = [] := by
  have hsplit : foldRecord w now (withFaults [] (faultedUpdates k msg))
      = applyCall (foldRecord w now (withFaults [] (pipelineUpdates.take k)))
          (now + (withFaults [] (pipelineUpdates.take k)).length)
          (failedCall msg) := by
    rw [faultedUpdates, withFaults_nil, List.map_append, foldRecord_append,
      ← withFaults_nil]
    rfl
  refine ⟨?_, ?_, ?_, ?_, runUpdates_snd store now id _⟩
  · rw [hsplit, applyCall_status]
    rfl
  · rw [hsplit, applyCall_current_step]
    rfl
  · rw [hsplit, applyCall_progress]
    rfl
  · rw [hsplit, applyCall_errorMessage, foldRecord_errorMessage]

/-- Claim C3 (amended), witness: the fault-during-training instance. -/
theorem C3_amended_witness :
    19 < pipelineUpdates.length
    ∧ ((foldRecord (initialWorkflow 0) 1
          (withFaults [] (faultedUpdates 19 "training diverged"))).status
        = "failed"
      ∧ (foldRecord (initialWorkflow 0) 1
            (withFaults [] (faultedUpdates 19 "training diverged"))).current_step
          = "error: " ++ "training diverged"
      ∧ (foldRecord (initialWorkflow 0) 1
            (withFaults [] (faultedUpdates 19 "training diverged"))).progress
          = (foldRecord (initialWorkflow 0) 1
              (withFaults [] (pipelineUpdates.take 19))).progress
      ∧ (foldRecord (initialWorkflow 0) 1
            (withFaults [] (faultedUpdates 19 "training diverged"))).errorMessage
          = (initialWorkflow 0).errorMessage
      ∧ (runUpdates [] 1 "wf1"
            (withFaults [] (faultedUpdates 19 "training diverged"))).2 = []) :=
  ⟨by decide,
   C3_fault_transitions_to_failed 19 (by decide) "training diverged"
     (initialWorkflow 0) 1 [] "wf1"⟩

/-- Claim C2, counterexample: subscribing a session sends exactly one
message — `connection_established` — which carries no workflow record: no
fetch from the Store happens and no initial snapshot is sent.  Even an
explicit `request_status` afterwards is answered with the mock payload
`status: processing` built from a random draw, never with the stored
(here: terminal) record.  This refutes "fetches the latest record for that
id from the Store and sends it to that session as an initial snapshot" and
"a session subscribing after the workflow reached COMPLETED or FAILED
receives a snapshot reflecting that terminal state". -/
theorem C2_subscribe_sends_no_snapshot :
    ((handleSession [] "session_abc" 5 (some "wf1") false).2
      = [OutMsg.connection_established "session_abc" (some "wf1")])
    ∧ ((handleMessage (handleSession [] "session_abc" 5 (some "wf1") false).1
          "session_abc" 6 InMsg.request_status 55).2
      = [OutMsg.workflow_status (some "wf1") "processing" 55 "pinn_training"]) :=
  ⟨rfl, rfl⟩

/-- Claim C2, amended: subscribing registers the session and synchronously
sends exactly one `connection_established` confirmation; no record is
fetched from the Store and no snapshot is sent.  A `workflow_status`
message is produced only in reply to an explicit `request_status`, and then
carries the fixed mock payload (`status: processing`, random progress),
independent of the Store — so a late joiner never receives a terminal-state
snapshot. -/
theorem C2_subscribe_confirmation_only (reg : Sessions) (sid : String)
    (now : Nat) (wid : Option String) (failing : Bool) (now2 : Nat)
    (r : Int) :
    ((handleSession reg sid now wid failing).2
      = [OutMsg.connection_established sid wid])
    ∧ (sessionsGet (handleSession reg sid now wid failing).1 sid
        = some { workflowId := wid, wsFailing := failing,
                 connectedAt := now, lastActivity := now })
    ∧ ((handleMessage (handleSession reg sid now wid failing).1 sid now2
          InMsg.request_status r).2
        = [OutMsg.workflow_status wid "processing" r "pinn_training"]) := by
  refine ⟨rfl, sessionsGet_sessionsSet_self reg sid _, ?_⟩
  rw [handleMessage]
  rw [show (handleSession reg sid now wid failing).1
      = sessionsSet reg sid
          { workflowId := wid, wsFailing := failing,
            connectedAt := now, lastActivity := now } from rfl]
  rw [sessionsGet_sessionsSet_self]
  rfl

/-- Claim C5, counterexample: broadcasting to a group whose first session
has a failing socket leaves the registry unchanged — the failing session is
NOT removed (refuting "removes that session from the registry"), while the
rest of the claim's behaviour does hold: the second session still gets the
message and no error reaches the caller. -/
theorem C5_failed_send_does_not_prune :
    ((broadcastToWorkflow
        [("A", ⟨some "wf1", true, 0, 0⟩), ("B", ⟨some "wf1", false, 0, 0⟩)]
        "wf1" (OutMsg.workflow_progress (some "wf1") 50 "pinn_training")).1
      = [("A", ⟨some "wf1", true, 0, 0⟩), ("B", ⟨some "wf1", false, 0, 0⟩)])
    ∧ ((broadcastToWorkflow
        [("A", ⟨some "wf1", true, 0, 0⟩), ("B", ⟨some "wf1", false, 0, 0⟩)]
        "wf1" (OutMsg.workflow_progress (some "wf1") 50 "pinn_training")).2
      = [("A", false), ("B", true)]) :=
  ⟨rfl, rfl⟩

/-- Claim C5, amended: a transport failure while sending to one session is
caught inside `sendMessage` (only logged): it does not abort or prevent the
attempt to every remaining session of the group, and no error propagates to
the publish caller — but the failing session is not removed from the
registry by the send path; sessions are removed only by the socket
close/error event handlers. -/
theorem C5_send_failure_contained (reg : Sessions) (wid : String)
    (m : OutMsg) :
    ((broadcastToWorkflow reg wid m).1 = reg)
    ∧ ((broadcastToWorkflow reg wid m).2
        = (reg.filter (fun e => e.2.workflowId = some wid)).map
            (fun e => (e.1, !e.2.wsFailing)))
    ∧ (∀ s : Session, sendMessage s m = !s.wsFailing)
    ∧ (∀ sid, onSocketClosed reg sid = reg.filter (fun e => e.1 ≠ sid)) :=
  ⟨rfl, broadcastAttempts_eq reg wid m,
   fun s => sendMessage_eq s m, fun _ => rfl⟩

/-- Claim C6: one broadcast attempts delivery to exactly the sessions
registered for that workflow id (in registry order, succeeding for every
working socket) and to no session registered for a different id; and
removing any one session from the registry removes only that session's
deliveries — every other session, of the same or a different workflow id,
still receives its attempt. -/
theorem C6_broadcast_exact_fanout (reg : Sessions) (wid : String)
    (m : OutMsg) (sid : String) :
    ((broadcastToWorkflow reg wid m).2
      = (reg.filter (fun e => e.2.workflowId = some wid)).map
          (fun e => (e.1, !e.2.wsFailing)))
    ∧ ((broadcastToWorkflow (sessionsDelete reg sid) wid m).2
        = ((broadcastToWorkflow reg wid m).2).filter (fun a => a.1 ≠ sid)) :=
  ⟨broadcastAttempts_eq reg wid m, broadcastAttempts_delete reg sid wid m⟩

/-- Claim C9, counterexample: the messages sessions actually receive are the
per-session periodic updates, whose payloads are built from each session's
own random draws.  Two sessions subscribed to the same workflow id receive
different messages (progress 42 / problem_analysis versus progress 7 /
pinn_training), so they do not observe events in identical relative order;
and a whole fault-free orchestrator run hands no messages at all to any
broadcaster, so received messages do not correspond to orchestrator
transitions in any order. -/
theorem C9_periodic_updates_differ_between_sessions :
    ((periodicTick
        [("A", ⟨some "wf1", false, 0, 0⟩), ("B", ⟨some "wf1", false, 0, 0⟩)]
        "A" (some "wf1") 42 0).map (fun x => x.1)
      = some (OutMsg.workflow_progress (some "wf1") 42 "problem_analysis"))
    ∧ ((periodicTick
        [("A", ⟨some "wf1", false, 0, 0⟩), ("B", ⟨some "wf1", false, 0, 0⟩)]
        "B" (some "wf1") 7 2).map (fun x => x.1)
      = some (OutMsg.workflow_progress (some "wf1") 7 "pinn_training"))
    ∧ ((runUpdates (kvPut [] "wf1" (initialWorkflow 0)) 1 "wf1"
        (withFaults [] pipelineUpdates)).2 = []) :=
  ⟨rfl, rfl, rfl⟩

/-- Claim C9, amended: messages published through `broadcastToWorkflow` are
delivered to each registered working session of the target workflow id in
exact publish order, so any two such sessions receive identical message
sequences from published messages; but the code's outbound traffic is the
per-session periodic random updates, which are generated independently per
session and bear no relation to orchestrator transitions, so two sessions
of the same id need not observe identical sequences. -/
theorem C9_published_order_identical (reg : Sessions)
    (hnd : (reg.map Prod.fst).Nodup) (s1 s2 : String) (t1 t2 : Session)
    (h1 : sessionsGet reg s1 = some t1) (h2 : sessionsGet reg s2 = some t2)
    (W : String) (hW1 : t1.workflowId = some W) (hW2 : t2.workflowId = some W)
    (hok1 : t1.wsFailing = false) (hok2 : t2.wsFailing = false)
    (pubs : List (String × OutMsg)) :
    (deliveredTo s1 (runPublishes reg pubs).2
      = (pubs.filter (fun p => p.1 = W)).map (fun p => p.2))
    ∧ (deliveredTo s1 (runPublishes reg pubs).2
        = deliveredTo s2 (runPublishes reg pubs).2) := by
  have e1 := runPublishes_deliveredTo reg hnd s1 t1 h1 W hW1 hok1 pubs
  have e2 := runPublishes_deliveredTo reg hnd s2 t2 h2 W hW2 hok2 pubs
  exact ⟨e1, by rw [e1, e2]⟩

/-- Claim C9 (amended), witness: two working sessions of `wf1` receive
exactly the `wf1` publishes, in order, from an interleaved publish
sequence. -/
theorem C9_amended_witness :
    ((([("A", (⟨some "wf1", false, 0, 0⟩ : Session)),
        ("B", ⟨some "wf1", false, 0, 0⟩)] : Sessions).map Prod.fst).Nodup)
    ∧ ((deliveredTo "A" (runPublishes
          [("A", ⟨some "wf1", false, 0, 0⟩), ("B", ⟨some "wf1", false, 0, 0⟩)]
          [("wf1", OutMsg.pong), ("wf2", OutMsg.pong),
           ("wf1", OutMsg.workflow_progress (some "wf1") 10 "mesh_generation")]).2
        = ([("wf1", OutMsg.pong), ("wf2", OutMsg.pong),
            ("wf1", OutMsg.workflow_progress (some "wf1") 10 "mesh_generation")].filter
              (fun p => p.1 = "wf1")).map (fun p => p.2))
      ∧ (deliveredTo "A" (runPublishes
          [("A", ⟨some "wf1", false, 0, 0⟩), ("B", ⟨some "wf1", false, 0, 0⟩)]
          [("wf1", OutMsg.pong), ("wf2", OutMsg.pong),
           ("wf1", OutMsg.workflow_progress (some "wf1") 10 "mesh_generation")]).2
        = deliveredTo "B" (runPublishes
          [("A", ⟨some "wf1", false, 0, 0⟩), ("B", ⟨some "wf1", false, 0, 0⟩)]
          [("wf1", OutMsg.pong), ("wf2", OutMsg.pong),
           ("wf1", OutMsg.workflow_progress (some "wf1") 10 "mesh_generation")]).2)) :=
  ⟨by decide,
   C9_published_order_identical
     [("A", ⟨some "wf1", false, 0, 0⟩), ("B", ⟨some "wf1", false, 0, 0⟩)]
     (by decide) "A" "B" ⟨some "wf1", false, 0, 0⟩ ⟨some "wf1", false, 0, 0⟩
     rfl rfl "wf1" rfl rfl rfl rfl
     [("wf1", OutMsg.pong), ("wf2", OutMsg.pong),
      ("wf1", OutMsg.workflow_progress (some "wf1") 10 "mesh_generation")]⟩

end PinnPlatform
